import Mathlib

/-!
# Verification of the anti_arpspoof scanning/monitoring engine

Shallow embedding of `anti_arpspoof.cpp` (single translation unit).

Modelling conventions:

* A hardware (MAC) address is a `List Nat` of its 6 bytes (`uint8_t hw[6]`).
* An IPv4 address is a `Nat`: the usual host-byte-order numeric value of
  the dotted quad `a.b.c.d`, i.e. `a*2^24 + b*2^16 + c*2^8 + d`.  The C
  program stores addresses as network-byte-order `uint32_t`; equality of
  two stored values is equality of the modelled values, and the stored
  increment `s_addr += htonl(1)` on the little-endian target machine is
  the function `ipStep` below (low octet + 1 mod 256, upper octets kept).
* `std::map<HWAddr, in_addr>` (memcmp-lexicographic key order) is a
  sorted association list; `std::set<uint32_t>` is a list of members.
* The blocking reads of the two socket loops become explicit input lists:
  `none` is a read that timed out, `some f` a received ARP frame.
-/

/-- A MAC address: the 6 bytes of `uint8_t hw[MAC_ADDR_LEN]`. -/
abbrev HWAddr := List Nat

/-- `MAC_ADDR_LEN` -/
def MAC_ADDR_LEN : Nat := 6

/-- `MAX_TRIES_FOR_RESOLV` -/
def MAX_TRIES_FOR_RESOLV : Nat := 5

/-- `ARPOP_REQUEST` (linux if_arp.h) -/
def ARPOP_REQUEST : Nat := 1

/-- `ARPOP_REPLY` (linux if_arp.h) -/
def ARPOP_REPLY : Nat := 2

/-- `memcmp(hw, m.hw, 6) < 0`: lexicographic byte order on MAC addresses
(`HWAddr::operator<`). -/
def hwLt : List Nat → List Nat → Bool
  | a :: as, b :: bs =>
    if a < b then true
    else if b < a then false
    else hwLt as bs
  | _, _ => false

/-- The lowercase hex digit character for `n < 16` (iostream `hex` output). -/
def hexChar (n : Nat) : Char :=
  if n < 10 then Char.ofNat (48 + n) else Char.ofNat (87 + n)

/-- Minimal-width lowercase hex rendering of a byte, as `operator<<(int)`
prints it with field width 0. -/
def hexStr (n : Nat) : String :=
  if n < 16 then String.mk [hexChar n]
  else String.mk [hexChar (n / 16), hexChar (n % 16)]

/-- One iteration of the output loop in `HWAddr::toString`.  `pad` is true
exactly for the first byte, where the one-shot `setw(2)`/`setfill('0')`
manipulators still apply; afterwards the width has reset to 0.  The
`if( hw[i] == 0 ) out << 0;` line appends a further "0" whenever the byte
is zero. -/
def fmtByte (pad : Bool) (v : Nat) : String :=
  let s := if pad ∧ v < 16 then "0" ++ hexStr v else hexStr v
  if v = 0 then s ++ "0" else s

/-- The loop of `HWAddr::toString`: bytes separated by ':', no trailing
colon (`if( ++i != MAC_ADDR_LEN ) out << ':';`); `pad` tracks whether the
one-shot `setw(2)` width is still pending. -/
def hwToStringGo : List Nat → Bool → String
  | [], _ => ""
  | v :: rest, pad =>
    fmtByte pad v ++ (if rest.isEmpty then "" else ":") ++ hwToStringGo rest false

/-- `HWAddr::toString()`. -/
def hwToString (hw : List Nat) : String :=
  hwToStringGo hw true

/-- The canonical colon-hex form the specification describes: every byte
as exactly two lowercase hex digits, groups separated by ':'.  Written
from the spec's words (`xx:xx:xx:xx:xx:xx`) for comparison with
`hwToString`. -/
def hex2 (v : Nat) : String :=
  String.mk [hexChar (v / 16), hexChar (v % 16)]

/-- Spec-side canonical formatter (see `hex2`). -/
def canonicalColonHex : List Nat → String
  | [] => ""
  | v :: rest =>
    hex2 v ++ (if rest.isEmpty then "" else ":") ++ canonicalColonHex rest

/-- `host.s_addr += IP_ONE` (`IP_ONE = htonl(1)`) as it acts on the
host-order value of the address on the little-endian target: the final
octet is incremented modulo 256 and the carry is lost (the stored
`uint32_t` add `+ 0x01000000` overflows out of bit 31). -/
def ipStep (s : Nat) : Nat :=
  256 * (s / 256) + (s % 256 + 1) % 256

/-- The candidate addresses the scan's `for` loop visits, fuel-bounded
(the loop header is `for( s_addr = first ; s_addr != last ; s_addr += IP_ONE )`,
which need not terminate for arbitrary bounds). -/
def rangeList : Nat → Nat → Nat → List Nat
  | 0, _, _ => []
  | fuel + 1, cur, last =>
    if cur = last then [] else cur :: rangeList fuel (ipStep cur) last

/-- The first `n` values the loop variable takes from `s`, whether or not
the loop would have stopped; used to exhibit the loop's actual orbit. -/
def ipVisits : Nat → Nat → List Nat
  | 0, _ => []
  | n + 1, s => s :: ipVisits n (ipStep s)

/-- `struct ARPFrame` (packed, 42 bytes on the wire).  Multi-byte numeric
fields are held here in host order; the byte codec below performs the
`htons`/`ntohs` conversions the C code applies field by field. -/
structure ARPFrame where
  eth_dst : List Nat
  eth_src : List Nat
  eth_ethertype : Nat
  hw_type : Nat
  protocol : Nat
  hw_len : Nat
  proto_len : Nat
  opcode : Nat
  hw_src : List Nat
  ip_src : Nat
  hw_dst : List Nat
  ip_dst : Nat
deriving DecidableEq, Repr

/-- Big-endian 2-byte serialisation of a 16-bit value (`htons`). -/
def toBE2 (n : Nat) : List Nat :=
  [n / 256 % 256, n % 256]

/-- Big-endian 4-byte serialisation of an IPv4 address: the memory bytes
of the network-order `uint32_t`. -/
def toBE4 (n : Nat) : List Nat :=
  [n / 2 ^ 24 % 256, n / 2 ^ 16 % 256, n / 2 ^ 8 % 256, n % 256]

/-- Reassemble a 16-bit big-endian value (`ntohs`). -/
def be16 (a b : Nat) : Nat :=
  256 * a + b

/-- Reassemble a 32-bit big-endian value. -/
def be32 (a b c d : Nat) : Nat :=
  2 ^ 24 * a + 2 ^ 16 * b + 2 ^ 8 * c + d

/-- The wire bytes of the ARP request `scan` builds (lines filling
`request` before the loop, plus `request.ip_dst = host` inside it):
broadcast Ethernet destination, ethertype `ETH_P_ARP = 0x0806`, hardware
type `ARPHRD_ETHER = 1`, protocol `ETH_P_IP = 0x0800`, lengths 6 and 4,
opcode `ARPOP_REQUEST`, sender fields from the local identity, zeroed
target hardware address, target protocol address `ipDst`. -/
def encodeRequest (localHw : List Nat) (ipSrc ipDst : Nat) : List Nat :=
  List.replicate 6 255 ++ localHw ++
  toBE2 0x0806 ++ toBE2 1 ++ toBE2 0x0800 ++ [6, 4] ++ toBE2 ARPOP_REQUEST ++
  localHw ++ toBE4 ipSrc ++ List.replicate 6 0 ++ toBE4 ipDst

/-- Parse a 42-byte buffer into the packed `ARPFrame` layout (what a
`read` into the packed struct followed by the field-wise `ntohs`
accesses yields); any other length is malformed. -/
def decode (b : List Nat) : Option ARPFrame :=
  match b with
  | y0 :: y1 :: y2 :: y3 :: y4 :: y5 ::
    y6 :: y7 :: y8 :: y9 :: y10 :: y11 ::
    y12 :: y13 :: y14 :: y15 :: y16 :: y17 :: y18 :: y19 :: y20 :: y21 ::
    y22 :: y23 :: y24 :: y25 :: y26 :: y27 ::
    y28 :: y29 :: y30 :: y31 ::
    y32 :: y33 :: y34 :: y35 :: y36 :: y37 ::
    y38 :: y39 :: y40 :: y41 :: [] =>
    some
      { eth_dst := [y0, y1, y2, y3, y4, y5]
        eth_src := [y6, y7, y8, y9, y10, y11]
        eth_ethertype := be16 y12 y13
        hw_type := be16 y14 y15
        protocol := be16 y16 y17
        hw_len := y18
        proto_len := y19
        opcode := be16 y20 y21
        hw_src := [y22, y23, y24, y25, y26, y27]
        ip_src := be32 y28 y29 y30 y31
        hw_dst := [y32, y33, y34, y35, y36, y37]
        ip_dst := be32 y38 y39 y40 y41 }
  | _ => none

/-- `ARPTable` = `std::map<HWAddr, in_addr>`: an association list kept
sorted by `hwLt` on the keys, mapping a MAC address to the IPv4 address
bound to it. -/
abbrev ARPTable := List (HWAddr × Nat)

/-- `table[hw] = ip`: `std::map::operator[]` insertion/overwrite keeping
the `hwLt` key order. -/
def tblInsert : ARPTable → HWAddr → Nat → ARPTable
  | [], k, v => [(k, v)]
  | (k', v') :: t, k, v =>
    if hwLt k k' then (k, v) :: (k', v') :: t
    else if hwLt k' k then (k', v') :: tblInsert t k v
    else (k, v) :: t

/-- `table.at(hw)`: `none` models the `out_of_range` throw. -/
def tblLookup : ARPTable → HWAddr → Option Nat
  | [], _ => none
  | (k, v) :: t, key => if k = key then some v else tblLookup t key

/-- The `for( auto &i : table )` search in `guard`: the first entry in
iteration (key) order whose mapped address equals `ip`, then `break`. -/
def tblFindByIP : ARPTable → Nat → Option HWAddr
  | [], _ => none
  | (k, v) :: t, ip => if v = ip then some k else tblFindByIP t ip

/-- The inner `do … while( attempts )` of `scan` for one candidate
`host`.  Each list element is one `read` result: `none` a timeout (which
sets `attempts = 0`), `some reply` a received frame.  A reply with opcode
`ARPOP_REPLY` whose sender protocol address equals the candidate inserts
`(hw_src → ip_src)` and sets `attempts = 0`; any other frame decrements
`attempts` and the loop continues only while `attempts ≠ 0`. -/
def scanResolve (host : Nat) : Nat → List (Option ARPFrame) → ARPTable → ARPTable
  | _, [], table => table
  | attempts, r :: rest, table =>
    match r with
    | none => table
    | some reply =>
      if reply.opcode = ARPOP_REPLY ∧ reply.ip_src = host then
        tblInsert table reply.hw_src reply.ip_src
      else if attempts - 1 = 0 then table
      else scanResolve host (attempts - 1) rest table

/-- One candidate's resolution attempt as `scan` performs it: the
do-while entered with `attempts = MAX_TRIES_FOR_RESOLV`. -/
def scanCandidate (host : Nat) (reads : List (Option ARPFrame)) (table : ARPTable) : ARPTable :=
  scanResolve host MAX_TRIES_FOR_RESOLV reads table

/-- The state `guard` carries across loop iterations: the trust table
(a `const ARPTable &`) and the `ignored` set of IPv4 addresses. -/
structure GuardState where
  table : ARPTable
  ignored : List Nat
deriving DecidableEq, Repr

/-- Observable actions of one `guard` iteration, in emission order. -/
inductive GuardEvent where
  /-- `"There's a new device. You should try with a new scan."` -/
  | newDevice : GuardEvent
  /-- The `"<hw> is poisoning <ip> …"` alert plus the interactive
  accept/decline prompt: the resolver invocation and the conflict
  report. -/
  | prompt : HWAddr → Nat → GuardEvent
  /-- The call `addARPEntry(ifname, ip, hw)`: the external installer. -/
  | installerCall : Nat → HWAddr → GuardEvent
  /-- `"Entry added"` -/
  | entryAdded : GuardEvent
  /-- `cerr << e.what()`: the installer's failure report. -/
  | installerError : GuardEvent
  /-- `"There's a missing entry. Please run the tool again …"` -/
  | missingEntry : GuardEvent
deriving DecidableEq, Repr

/-- Environment of one `guard` iteration: the `read` result, the line the
operator types at the prompt, and whether `addARPEntry` would succeed. -/
structure GuardInput where
  frame : Option ARPFrame
  answer : String
  installerOk : Bool

/-- One iteration of the `while( active )` loop of `guard` (lines
272–315): returns the successor state and the emitted events. -/
def guardStep (st : GuardState) (inp : GuardInput) : GuardState × List GuardEvent :=
  match inp.frame with
  | none => (st, [])
  | some reply =>
    if reply.opcode = ARPOP_REPLY then
      let hw := reply.hw_src
      let ip := reply.ip_src
      match tblLookup st.table hw with
      | none => (st, [GuardEvent.newDevice])
      | some reg =>
        if reg ≠ ip then
          if ip ∉ st.ignored then
            -- find = true; alert and prompt
            if inp.answer ≠ "N" ∧ inp.answer ≠ "n" then
              -- accepted: find = false, search the table for ip
              match tblFindByIP st.table ip with
              | some key =>
                if inp.installerOk then
                  ({ st with ignored := ip :: st.ignored },
                   [GuardEvent.prompt hw ip, GuardEvent.installerCall ip key,
                    GuardEvent.entryAdded])
                else
                  -- addARPEntry threw: find stays false, so the missing-entry
                  -- message is also printed
                  ({ st with ignored := ip :: st.ignored },
                   [GuardEvent.prompt hw ip, GuardEvent.installerCall ip key,
                    GuardEvent.installerError, GuardEvent.missingEntry])
              | none =>
                ({ st with ignored := ip :: st.ignored },
                 [GuardEvent.prompt hw ip, GuardEvent.missingEntry])
            else
              -- declined: find is still true, no further message
              ({ st with ignored := ip :: st.ignored }, [GuardEvent.prompt hw ip])
          else (st, [])
        else (st, [])
    else (st, [])

/-- The `guard` loop over a finite schedule of iterations. -/
def guardRun (st : GuardState) : List GuardInput → GuardState × List GuardEvent
  | [] => (st, [])
  | i :: rest =>
    let s1 := guardStep st i
    let s2 := guardRun s1.1 rest
    (s2.1, s1.2 ++ s2.2)

/-- `guard` as called from `main` (the name `guard` itself is taken by
the Lean library): the ignore set starts empty (`set<uint32_t> ignored;`). -/
def guardEntry (table : ARPTable) (inputs : List GuardInput) : GuardState × List GuardEvent :=
  guardRun ⟨table, []⟩ inputs

/-- Whether an event is the resolver invocation / conflict report. -/
def isPrompt : GuardEvent → Bool
  | GuardEvent.prompt _ _ => true
  | _ => false

/-- Whether an event is a call of the external installer. -/
def isInstallerCall : GuardEvent → Bool
  | GuardEvent.installerCall _ _ => true
  | _ => false

/-- Sample MAC `AA:AA:AA:AA:AA:AA` (spec scenarios). -/
def hwAA : HWAddr := [170, 170, 170, 170, 170, 170]

/-- Sample MAC `BB:BB:BB:BB:BB:BB` (spec scenarios). -/
def hwBB : HWAddr := [187, 187, 187, 187, 187, 187]

/-- `10.0.0.5` in host order. -/
def ip5 : Nat := 167772165

/-- `10.0.0.9` in host order. -/
def ip9 : Nat := 167772169

/-- The trust table of the spec's scenario C:
`{BB:… → 10.0.0.9, AA:… → 10.0.0.5}`, in `hwLt` key order. -/
def tableC : ARPTable := [(hwAA, ip5), (hwBB, ip9)]

/-- Sample MAC `CC:CC:CC:CC:CC:CC`. -/
def hwCC : HWAddr := [204, 204, 204, 204, 204, 204]

/-- `10.0.0.7` in host order. -/
def ip7 : Nat := 167772167

/-- A three-entry trust table
`{AA:… → 10.0.0.5, BB:… → 10.0.0.9, CC:… → 10.0.0.7}`. -/
def tableD : ARPTable := [(hwAA, ip5), (hwBB, ip9), (hwCC, ip7)]

/-- An ARP reply frame as the monitor sees it: sender `hw` claiming
`ip`; the remaining fields are not inspected by `guard`. -/
def replyFrom (hw : HWAddr) (ip : Nat) : ARPFrame :=
  { eth_dst := [255, 255, 255, 255, 255, 255]
    eth_src := hw
    eth_ethertype := 0x0806
    hw_type := 1
    protocol := 0x0800
    hw_len := 6
    proto_len := 4
    opcode := ARPOP_REPLY
    hw_src := hw
    ip_src := ip
    hw_dst := [255, 255, 255, 255, 255, 255]
    ip_dst := 0 }

/-!
## Theorems
-/

/-- C6 (code bug): `HWAddr::toString` does not produce the canonical
two-digit colon-hex form.  The `setw(2)` manipulator applies only to the
first byte printed, so a later byte in `0x1..0xf` is printed as a single
digit (`aa:aa:aa:aa:aa:0a` comes out as `aa:aa:aa:aa:aa:a`), and the
zero-compensation line doubles the already padded first byte (`00:…`
comes out as `000:…`). -/
theorem hwToString_not_canonical :
    hwToString [170, 170, 170, 170, 170, 10] = "aa:aa:aa:aa:aa:a"
    ∧ canonicalColonHex [170, 170, 170, 170, 170, 10] = "aa:aa:aa:aa:aa:0a"
    ∧ hwToString [170, 170, 170, 170, 170, 10] ≠
        canonicalColonHex [170, 170, 170, 170, 170, 10]
    ∧ hwToString [0, 5, 255, 255, 255, 255] = "000:5:ff:ff:ff:ff" := by
  refine ⟨by rfl, by rfl, ?_, by rfl⟩
  have h1 : hwToString [170, 170, 170, 170, 170, 10] = "aa:aa:aa:aa:aa:a" := by rfl
  have h2 : canonicalColonHex [170, 170, 170, 170, 170, 10] = "aa:aa:aa:aa:aa:0a" := by rfl
  rw [h1, h2]
  simp

/-- `(256*u + a) + htonl-style increment`: while the final octet does not
overflow, the loop's step is an ordinary `+ 1` on the host-order value. -/
theorem ipStep_no_wrap (u a : Nat) (h : a + 1 < 256) :
    ipStep (256 * u + a) = 256 * u + (a + 1) := by
  have h1 : (256 * u + a) / 256 = u := by omega
  have h2 : (256 * u + a) % 256 = a := by omega
  simp [ipStep, h1, h2]
  omega

/-- Iterating the step `n` times stays carry-free while the final octet
does not overflow. -/
theorem ipStep_iterate (u : Nat) : ∀ n a : Nat, a + n < 256 →
    ipStep^[n] (256 * u + a) = 256 * u + (a + n) := by
  intro n
  induction n with
  | zero => intro a _; simp
  | succ n ih =>
    intro a h
    rw [Function.iterate_succ_apply, ipStep_no_wrap u a (by omega)]
    rw [ih (a + 1) (by omega)]
    omega

/-- While the bounds share their upper three octets, the scan loop's
candidate sequence is exactly `List.range'` of the host-order values. -/
theorem rangeList_eq_range' : ∀ n fuel u a : Nat, a + n < 256 → n ≤ fuel →
    rangeList fuel (256 * u + a) (256 * u + (a + n)) = List.range' (256 * u + a) n := by
  intro n
  induction n with
  | zero =>
    intro fuel u a _ _
    cases fuel with
    | zero => simp [rangeList]
    | succ fuel => simp [rangeList]
  | succ n ih =>
    intro fuel u a h hf
    cases fuel with
    | zero => omega
    | succ fuel =>
      have hne : 256 * u + a ≠ 256 * u + (a + (n + 1)) := by omega
      rw [rangeList, if_neg hne, ipStep_no_wrap u a (by omega)]
      have hshift : 256 * u + (a + (n + 1)) = 256 * u + ((a + 1) + n) := by omega
      rw [hshift, ih fuel u (a + 1) (by omega) (by omega)]
      rw [List.range'_succ]
      simp [Nat.add_assoc]

set_option maxRecDepth 8000 in
/-- C4 counterexample: for the bounds of the subnet `10.0.0.0/23`
(`first = 10.0.0.1`, `last = 10.0.1.255`, host-order values `167772161`
and `167772671`), the iteration does not behave as claimed: after
`last - first = 510` steps the loop variable has not reached `last` (so
the loop has not yielded exactly `last - first` addresses and stopped),
`last` is never reached at all within 511 steps, and the visited sequence
is not ascending: the 256th visited address (`10.0.0.0`, after the final
octet wraps) is smaller than the 255th (`10.0.0.255`). -/
theorem addressRange_wrap_cex :
    ipStep^[510] 167772161 ≠ 167772671
    ∧ 167772671 ∉ ipVisits 511 167772161
    ∧ ipStep^[255] 167772161 < ipStep^[254] 167772161 := by
  refine ⟨by decide, by decide, by decide⟩

/-- C4 (amended): when the two bounds differ only in their final octet —
`first = 256*u + a`, `last = 256*u + b` with `a ≤ b < 256`, which is the
shape the scan's `/24`-or-smaller bounds take — the iteration starts at
`first`, steps by 1 in host byte order, yields exactly `last - first`
addresses in strictly ascending order, excludes `last`, yields nothing
when the bounds coincide, and reaches `last` after exactly `last - first`
steps.  (For bounds that differ in an upper octet the increment wraps
without carry and the original claim fails: `addressRange_wrap_cex`.) -/
theorem addressRange_host_order (u a b : Nat) (hab : a ≤ b) (hb : b < 256) :
    rangeList (b - a) (256 * u + a) (256 * u + b) = List.range' (256 * u + a) (b - a)
    ∧ (rangeList (b - a) (256 * u + a) (256 * u + b)).length
        = (256 * u + b) - (256 * u + a)
    ∧ List.Pairwise (· < ·) (rangeList (b - a) (256 * u + a) (256 * u + b))
    ∧ (256 * u + b) ∉ rangeList (b - a) (256 * u + a) (256 * u + b)
    ∧ (a = b → rangeList (b - a) (256 * u + a) (256 * u + b) = [])
    ∧ ipStep^[b - a] (256 * u + a) = 256 * u + b := by
  obtain ⟨n, rfl⟩ : ∃ n, b = a + n := ⟨b - a, by omega⟩
  rw [Nat.add_sub_cancel_left]
  have hmain : rangeList n (256 * u + a) (256 * u + (a + n))
      = List.range' (256 * u + a) n :=
    rangeList_eq_range' n n u a (by omega) le_rfl
  refine ⟨hmain, ?_, ?_, ?_, ?_, ?_⟩
  · rw [hmain, List.length_range']; omega
  · rw [hmain]; exact List.pairwise_lt_range' _ _
  · rw [hmain, List.mem_range'_1]; omega
  · intro hEq; rw [hmain]
    have : n = 0 := by omega
    simp [this]
  · exact ipStep_iterate u n a (by omega)

/-- Witness for `addressRange_host_order` at the bounds of
`192.168.1.0/24` (`u = 12625921 = 192*2^16 + 168*2^8 + 1`, first usable
host `.1`, broadcast `.255`). -/
theorem addressRange_host_order_witness :
    rangeList (255 - 1) (256 * 12625921 + 1) (256 * 12625921 + 255)
      = List.range' (256 * 12625921 + 1) (255 - 1)
    ∧ (rangeList (255 - 1) (256 * 12625921 + 1) (256 * 12625921 + 255)).length
        = (256 * 12625921 + 255) - (256 * 12625921 + 1)
    ∧ List.Pairwise (· < ·)
        (rangeList (255 - 1) (256 * 12625921 + 1) (256 * 12625921 + 255))
    ∧ (256 * 12625921 + 255) ∉
        rangeList (255 - 1) (256 * 12625921 + 1) (256 * 12625921 + 255)
    ∧ (1 = 255 → rangeList (255 - 1) (256 * 12625921 + 1) (256 * 12625921 + 255) = [])
    ∧ ipStep^[255 - 1] (256 * 12625921 + 1) = 256 * 12625921 + 255 :=
  addressRange_host_order 12625921 1 255 (by decide) (by decide)

/-- Splitting a length-6 list into its elements. -/
theorem length_eq_six {α : Type} (l : List α) (h : l.length = 6) :
    ∃ a b c d e f, l = [a, b, c, d, e, f] := by
  match l, h with
  | [a, b, c, d, e, f], _ => exact ⟨a, b, c, d, e, f, rfl⟩

/-- C7: decoding the frame built by the request encoder recovers the
local hardware address as sender hardware address, the local IP as
sender protocol address, the target IP as target protocol address and
opcode = request; the encoded frame carries the broadcast Ethernet
destination and a zeroed target hardware address field (together with
the fixed ARP-over-Ethernet constants of the wire format). -/
theorem arp_request_roundtrip (hw : List Nat) (ipS ipD : Nat)
    (hhw : hw.length = 6) (hS : ipS < 2 ^ 32) (hD : ipD < 2 ^ 32) :
    decode (encodeRequest hw ipS ipD) =
      some
        { eth_dst := List.replicate 6 255
          eth_src := hw
          eth_ethertype := 0x0806
          hw_type := 1
          protocol := 0x0800
          hw_len := 6
          proto_len := 4
          opcode := ARPOP_REQUEST
          hw_src := hw
          ip_src := ipS
          hw_dst := List.replicate 6 0
          ip_dst := ipD } := by
  obtain ⟨a, b, c, d, e, f, rfl⟩ := length_eq_six hw hhw
  simp only [encodeRequest, toBE2, toBE4, List.replicate, List.cons_append,
    List.nil_append, decode, be16, be32, ARPOP_REQUEST, Option.some.injEq,
    ARPFrame.mk.injEq]
  norm_num
  constructor
  · omega
  · omega

/-- `hwLt` is irreflexive (memcmp of a buffer with itself is 0). -/
theorem hwLt_irrefl : ∀ a : List Nat, hwLt a a = false := by
  intro a
  induction a with
  | nil => rfl
  | cons x xs ih => simp [hwLt, ih]

/-- `std::map` insertion overwrites: after `table[hw] = ip`, looking up
`hw` yields `ip` whatever was there before. -/
theorem tblLookup_tblInsert (t : ARPTable) (k : HWAddr) (v : Nat) :
    tblLookup (tblInsert t k v) k = some v := by
  induction t with
  | nil => simp [tblInsert, tblLookup]
  | cons hd tl ih =>
    obtain ⟨k', v'⟩ := hd
    by_cases h1 : hwLt k k'
    · simp [tblInsert, h1, tblLookup]
    · by_cases h2 : hwLt k' k
      · have hne : k' ≠ k := by
          intro hEq
          rw [hEq, hwLt_irrefl] at h2
          exact Bool.false_ne_true h2
        simp [tblInsert, h1, h2, tblLookup, hne, ih]
      · simp [tblInsert, h1, h2, tblLookup]

/-- If no received frame matches the candidate, the resolution loop ends
with the table unchanged, whatever the attempt budget. -/
theorem scanResolve_no_match (host : Nat) :
    ∀ (reads : List (Option ARPFrame)) (att : Nat) (table : ARPTable),
      (∀ fr, some fr ∈ reads → ¬(fr.opcode = ARPOP_REPLY ∧ fr.ip_src = host)) →
      scanResolve host att reads table = table := by
  intro reads
  induction reads with
  | nil => intro att table _; cases att <;> rfl
  | cons r rest ih =>
    intro att table h
    cases r with
    | none => cases att <;> rfl
    | some fr =>
      have hfr : ¬(fr.opcode = ARPOP_REPLY ∧ fr.ip_src = host) :=
        h fr (List.mem_cons_self _ _)
      have hrest : ∀ g, some g ∈ rest → ¬(g.opcode = ARPOP_REPLY ∧ g.ip_src = host) :=
        fun g hg => h g (List.mem_cons_of_mem _ hg)
      cases att with
      | zero => simp [scanResolve, hfr, ih _ _ hrest]
      | succ n => simp [scanResolve, hfr, ih _ _ hrest]

/-- C3: the per-candidate resolution protocol of `scan`.  With the
budget of `MAX_TRIES_FOR_RESOLV = 5` attempts: a timeout exhausts the
candidate immediately; a frame is accepted only when its opcode is
reply and its sender protocol address equals the candidate, and then
`(hw_src → ip_src)` is inserted; a non-matching frame consumes exactly
one attempt, so a match on the fifth read is still accepted while five
non-matching reads exhaust the budget and leave the table unchanged
(the candidate stays absent, no error); insertion overwrites any prior
entry for the same hardware address. -/
theorem scan_resolution_protocol
    (host : Nat) (table : ARPTable) (rest : List (Option ARPFrame))
    (g f1 f2 f3 f4 f5 : ARPFrame)
    (hg : g.opcode = ARPOP_REPLY ∧ g.ip_src = host)
    (h1 : ¬(f1.opcode = ARPOP_REPLY ∧ f1.ip_src = host))
    (h2 : ¬(f2.opcode = ARPOP_REPLY ∧ f2.ip_src = host))
    (h3 : ¬(f3.opcode = ARPOP_REPLY ∧ f3.ip_src = host))
    (h4 : ¬(f4.opcode = ARPOP_REPLY ∧ f4.ip_src = host))
    (h5 : ¬(f5.opcode = ARPOP_REPLY ∧ f5.ip_src = host)) :
    scanCandidate host (none :: rest) table = table
    ∧ scanCandidate host (some g :: rest) table = tblInsert table g.hw_src g.ip_src
    ∧ scanCandidate host (some f1 :: some f2 :: some f3 :: some f4 :: some g :: rest)
        table = tblInsert table g.hw_src g.ip_src
    ∧ scanCandidate host (some f1 :: some f2 :: some f3 :: some f4 :: some f5 ::
        some g :: rest) table = table
    ∧ (∀ reads att t,
        (∀ fr, some fr ∈ reads → ¬(fr.opcode = ARPOP_REPLY ∧ fr.ip_src = host)) →
        scanResolve host att reads t = t)
    ∧ (∀ t k v, tblLookup (tblInsert t k v) k = some v) := by
  refine ⟨rfl, ?_, ?_, ?_, fun reads att t h => scanResolve_no_match host reads att t h,
    fun t k v => tblLookup_tblInsert t k v⟩
  · simp [scanCandidate, MAX_TRIES_FOR_RESOLV, scanResolve, hg]
  · simp [scanCandidate, MAX_TRIES_FOR_RESOLV, scanResolve, h1, h2, h3, h4, hg]
  · simp [scanCandidate, MAX_TRIES_FOR_RESOLV, scanResolve, h1, h2, h3, h4, h5]

/-- Witness for `scan_resolution_protocol`: candidate `10.0.0.5`, one
matching reply from `AA:…`, non-matching frames claiming `10.0.0.9`. -/
theorem scan_resolution_protocol_witness :
    scanCandidate ip5 (none :: []) [] = []
    ∧ scanCandidate ip5 (some (replyFrom hwAA ip5) :: []) []
        = tblInsert [] (replyFrom hwAA ip5).hw_src (replyFrom hwAA ip5).ip_src
    ∧ scanCandidate ip5 (some (replyFrom hwBB ip9) :: some (replyFrom hwBB ip9) ::
        some (replyFrom hwBB ip9) :: some (replyFrom hwBB ip9) ::
        some (replyFrom hwAA ip5) :: []) []
        = tblInsert [] (replyFrom hwAA ip5).hw_src (replyFrom hwAA ip5).ip_src
    ∧ scanCandidate ip5 (some (replyFrom hwBB ip9) :: some (replyFrom hwBB ip9) ::
        some (replyFrom hwBB ip9) :: some (replyFrom hwBB ip9) ::
        some (replyFrom hwBB ip9) :: some (replyFrom hwAA ip5) :: []) [] = []
    ∧ (∀ reads att t,
        (∀ fr, some fr ∈ reads → ¬(fr.opcode = ARPOP_REPLY ∧ fr.ip_src = ip5)) →
        scanResolve ip5 att reads t = t)
    ∧ (∀ t k v, tblLookup (tblInsert t k v) k = some v) :=
  scan_resolution_protocol ip5 [] [] (replyFrom hwAA ip5) (replyFrom hwBB ip9)
    (replyFrom hwBB ip9) (replyFrom hwBB ip9) (replyFrom hwBB ip9) (replyFrom hwBB ip9)
    (by decide) (by decide) (by decide) (by decide) (by decide) (by decide)

/-- Witness for `arp_request_roundtrip` at a concrete frame. -/
theorem arp_request_roundtrip_witness :
    decode (encodeRequest [1, 2, 3, 4, 5, 6] 167772161 167772170) =
      some
        { eth_dst := List.replicate 6 255
          eth_src := [1, 2, 3, 4, 5, 6]
          eth_ethertype := 0x0806
          hw_type := 1
          protocol := 0x0800
          hw_len := 6
          proto_len := 4
          opcode := ARPOP_REQUEST
          hw_src := [1, 2, 3, 4, 5, 6]
          ip_src := 167772161
          hw_dst := List.replicate 6 0
          ip_dst := 167772170 } :=
  arp_request_roundtrip [1, 2, 3, 4, 5, 6] 167772161 167772170
    (by decide) (by decide) (by decide)

/-- Under a fresh conflict (trusted `hw` claiming a different `ip` not
yet ignored), one `guard` iteration always moves to the state with `ip`
prepended to the ignore set and emits the alert/prompt followed by the
branch-dependent resolution events. -/
theorem guardStep_conflict (st : GuardState) (f : ARPFrame) (a : String) (ok : Bool)
    (reg : Nat)
    (hop : f.opcode = ARPOP_REPLY)
    (hreg : tblLookup st.table f.hw_src = some reg)
    (hconf : reg ≠ f.ip_src)
    (hnew : f.ip_src ∉ st.ignored) :
    guardStep st ⟨some f, a, ok⟩ =
      ({ st with ignored := f.ip_src :: st.ignored },
       GuardEvent.prompt f.hw_src f.ip_src ::
        (if a ≠ "N" ∧ a ≠ "n" then
          match tblFindByIP st.table f.ip_src with
          | some key =>
            if ok then [GuardEvent.installerCall f.ip_src key, GuardEvent.entryAdded]
            else [GuardEvent.installerCall f.ip_src key, GuardEvent.installerError,
                  GuardEvent.missingEntry]
          | none => [GuardEvent.missingEntry]
        else [])) := by
  by_cases hacc : a ≠ "N" ∧ a ≠ "n"
  · cases hfind : tblFindByIP st.table f.ip_src with
    | none => simp [guardStep, hop, hreg, hconf, hnew, hacc, hfind]
    | some key => cases ok <;> simp [guardStep, hop, hreg, hconf, hnew, hacc, hfind]
  · simp [guardStep, hop, hreg, hconf, hnew, hacc]

/-- A conflicting reply whose claimed address is already in the ignore
set is dropped: no state change, no events. -/
theorem guardStep_suppressed (st : GuardState) (f : ARPFrame) (a : String) (ok : Bool)
    (reg : Nat)
    (hop : f.opcode = ARPOP_REPLY)
    (hreg : tblLookup st.table f.hw_src = some reg)
    (hconf : reg ≠ f.ip_src)
    (hig : f.ip_src ∈ st.ignored) :
    guardStep st ⟨some f, a, ok⟩ = (st, []) := by
  simp [guardStep, hop, hreg, hconf, hig]

/-- C1: on an accepted conflict resolution, if some trust-table entry
records `ip`, the installer is invoked with `(ip, that entry's hardware
address)`; if no entry records `ip`, the installer is not invoked and
the missing-entry / re-scan report is produced instead; in both cases
`ip` enters the ignore set. -/
theorem guard_accept_resolution (st : GuardState) (f : ARPFrame) (a : String)
    (ok : Bool) (reg : Nat)
    (hop : f.opcode = ARPOP_REPLY)
    (hreg : tblLookup st.table f.hw_src = some reg)
    (hconf : reg ≠ f.ip_src)
    (hnew : f.ip_src ∉ st.ignored)
    (hacc : a ≠ "N" ∧ a ≠ "n") :
    (∀ key, tblFindByIP st.table f.ip_src = some key →
      GuardEvent.installerCall f.ip_src key ∈ (guardStep st ⟨some f, a, ok⟩).2)
    ∧ (tblFindByIP st.table f.ip_src = none →
        (∀ e ∈ (guardStep st ⟨some f, a, ok⟩).2, isInstallerCall e = false)
        ∧ GuardEvent.missingEntry ∈ (guardStep st ⟨some f, a, ok⟩).2)
    ∧ f.ip_src ∈ (guardStep st ⟨some f, a, ok⟩).1.ignored := by
  rw [guardStep_conflict st f a ok reg hop hreg hconf hnew]
  refine ⟨?_, ?_, ?_⟩
  · intro key hk
    cases ok <;> simp [hacc, hk]
  · intro hk
    simp [hacc, hk, isInstallerCall]
  · simp

/-- Witness for `guard_accept_resolution`: the spec's scenario C —
trust table `{BB → 10.0.0.9, AA → 10.0.0.5}`, reply from `AA` claiming
`10.0.0.9`, accepted; the installer is invoked with
`(10.0.0.9, BB)` and `10.0.0.9` is ignored afterwards. -/
theorem guard_accept_resolution_witness :
    GuardEvent.installerCall ip9 hwBB ∈
      (guardStep ⟨tableC, []⟩ ⟨some (replyFrom hwAA ip9), "Y", true⟩).2
    ∧ ip9 ∈ (guardStep ⟨tableC, []⟩ ⟨some (replyFrom hwAA ip9), "Y", true⟩).1.ignored :=
  ⟨(guard_accept_resolution ⟨tableC, []⟩ (replyFrom hwAA ip9) "Y" true ip5
      (by decide) (by decide) (by decide) (by decide) (by simp)).1 hwBB (by decide),
   (guard_accept_resolution ⟨tableC, []⟩ (replyFrom hwAA ip9) "Y" true ip5
      (by decide) (by decide) (by decide) (by decide) (by simp)).2.2⟩

/-- C2: a fresh conflicting reply prompts exactly once; immediately
reprocessing the same reply is suppressed with no state change and no
events; in general, once `ip` is ignored, any conflicting reply claiming
`ip` is dropped without resolver, installer or report. -/
theorem monitor_idempotent (st : GuardState) (f : ARPFrame) (a a2 : String)
    (ok ok2 : Bool) (reg : Nat)
    (hop : f.opcode = ARPOP_REPLY)
    (hreg : tblLookup st.table f.hw_src = some reg)
    (hconf : reg ≠ f.ip_src)
    (hnew : f.ip_src ∉ st.ignored) :
    (guardStep st ⟨some f, a, ok⟩).2.countP isPrompt = 1
    ∧ guardStep (guardStep st ⟨some f, a, ok⟩).1 ⟨some f, a2, ok2⟩
        = ((guardStep st ⟨some f, a, ok⟩).1, [])
    ∧ (∀ (st3 : GuardState) (g : ARPFrame) (a3 : String) (ok3 : Bool) (reg3 : Nat),
        g.opcode = ARPOP_REPLY → g.ip_src = f.ip_src → f.ip_src ∈ st3.ignored →
        tblLookup st3.table g.hw_src = some reg3 → reg3 ≠ g.ip_src →
        guardStep st3 ⟨some g, a3, ok3⟩ = (st3, [])) := by
  have hshape := guardStep_conflict st f a ok reg hop hreg hconf hnew
  refine ⟨?_, ?_, ?_⟩
  · rw [hshape]
    rcases hfind : tblFindByIP st.table f.ip_src with _ | key <;>
      by_cases hacc : a ≠ "N" ∧ a ≠ "n" <;> cases ok <;>
        simp [hfind, hacc, isPrompt, List.countP_cons]
  · rw [hshape]
    exact guardStep_suppressed _ f a2 ok2 reg hop hreg hconf (List.mem_cons_self _ _)
  · intro st3 g a3 ok3 reg3 hop3 hip3 hig3 hreg3 hconf3
    exact guardStep_suppressed st3 g a3 ok3 reg3 hop3 hreg3 hconf3 (hip3 ▸ hig3)

/-- Witness for `monitor_idempotent` on scenario C's table, processing
the conflicting reply `(AA, 10.0.0.9)` twice back to back, then a
conflicting reply for the already ignored `10.0.0.9`. -/
theorem monitor_idempotent_witness :
    (guardStep ⟨tableC, []⟩ ⟨some (replyFrom hwAA ip9), "Y", true⟩).2.countP isPrompt = 1
    ∧ guardStep (guardStep ⟨tableC, []⟩ ⟨some (replyFrom hwAA ip9), "Y", true⟩).1
        ⟨some (replyFrom hwAA ip9), "n", false⟩
        = ((guardStep ⟨tableC, []⟩ ⟨some (replyFrom hwAA ip9), "Y", true⟩).1, [])
    ∧ guardStep ⟨tableC, [ip9]⟩ ⟨some (replyFrom hwAA ip9), "Y", true⟩
        = (⟨tableC, [ip9]⟩, []) :=
  ⟨(monitor_idempotent ⟨tableC, []⟩ (replyFrom hwAA ip9) "Y" "n" true false ip5
      (by decide) (by decide) (by decide) (by decide)).1,
   (monitor_idempotent ⟨tableC, []⟩ (replyFrom hwAA ip9) "Y" "n" true false ip5
      (by decide) (by decide) (by decide) (by decide)).2.1,
   (monitor_idempotent ⟨tableC, []⟩ (replyFrom hwAA ip9) "Y" "n" true false ip5
      (by decide) (by decide) (by decide) (by decide)).2.2 ⟨tableC, [ip9]⟩
     (replyFrom hwAA ip9) "Y" true ip5 (by decide) (by decide) (by decide)
     (by decide) (by decide)⟩

/-- C5 counterexample: the answer `"x"` is not an affirmative response,
yet `guard` treats it as acceptance — the check is
`option != "N" && option != "n"` — and invokes the installer
(scenario-C table, conflict `(AA, 10.0.0.9)`). -/
theorem nonaffirmative_answer_installs_cex :
    guardStep ⟨tableC, []⟩ ⟨some (replyFrom hwAA ip9), "x", true⟩
      = (⟨tableC, [ip9]⟩,
         [GuardEvent.prompt hwAA ip9, GuardEvent.installerCall ip9 hwBB,
          GuardEvent.entryAdded])
    ∧ GuardEvent.installerCall ip9 hwBB ∈
        (guardStep ⟨tableC, []⟩ ⟨some (replyFrom hwAA ip9), "x", true⟩).2 := by
  have h : guardStep ⟨tableC, []⟩ ⟨some (replyFrom hwAA ip9), "x", true⟩
      = (⟨tableC, [ip9]⟩,
         [GuardEvent.prompt hwAA ip9, GuardEvent.installerCall ip9 hwBB,
          GuardEvent.entryAdded]) := by
    rw [guardStep_conflict ⟨tableC, []⟩ (replyFrom hwAA ip9) "x" true ip5
      (by decide) (by decide) (by decide) (by decide)]
    simp [tableC, tblFindByIP, hwAA, hwBB, ip5, ip9, replyFrom]
  exact ⟨h, by rw [h]; simp⟩

/-- C5 (amended): only the literal answers `"N"` and `"n"` are treated
as decline; on decline the installer is not invoked, the conflict
alert/prompt is still produced, and `ip` is still added to the ignore
set; every other answer is treated as accept (when the table records an
owner for `ip`, the installer is then invoked). -/
theorem decline_exact_n (st : GuardState) (f : ARPFrame) (a : String) (ok : Bool)
    (reg : Nat)
    (hop : f.opcode = ARPOP_REPLY)
    (hreg : tblLookup st.table f.hw_src = some reg)
    (hconf : reg ≠ f.ip_src)
    (hnew : f.ip_src ∉ st.ignored)
    (hdecl : a = "N" ∨ a = "n") :
    guardStep st ⟨some f, a, ok⟩
      = ({ st with ignored := f.ip_src :: st.ignored },
         [GuardEvent.prompt f.hw_src f.ip_src])
    ∧ (∀ e ∈ (guardStep st ⟨some f, a, ok⟩).2, isInstallerCall e = false)
    ∧ f.ip_src ∈ (guardStep st ⟨some f, a, ok⟩).1.ignored
    ∧ (∀ a2, a2 ≠ "N" → a2 ≠ "n" →
        ∀ key, tblFindByIP st.table f.ip_src = some key →
        GuardEvent.installerCall f.ip_src key ∈ (guardStep st ⟨some f, a2, ok⟩).2) := by
  have h : guardStep st ⟨some f, a, ok⟩
      = ({ st with ignored := f.ip_src :: st.ignored },
         [GuardEvent.prompt f.hw_src f.ip_src]) := by
    rw [guardStep_conflict st f a ok reg hop hreg hconf hnew]
    rcases hdecl with h | h <;> subst h <;> simp
  refine ⟨h, ?_, ?_, ?_⟩
  · rw [h]; simp [isInstallerCall]
  · rw [h]; simp
  · intro a2 hN hn key hk
    rw [guardStep_conflict st f a2 ok reg hop hreg hconf hnew]
    cases ok <;> simp [hN, hn, hk]

/-- Witness for `decline_exact_n`: scenario C's conflict declined with
`"n"`; the accept-side conjunct is exercised with `"Y"`. -/
theorem decline_exact_n_witness :
    guardStep ⟨tableC, []⟩ ⟨some (replyFrom hwAA ip9), "n", true⟩
      = (⟨tableC, [ip9]⟩, [GuardEvent.prompt hwAA ip9])
    ∧ GuardEvent.installerCall ip9 hwBB ∈
        (guardStep ⟨tableC, []⟩ ⟨some (replyFrom hwAA ip9), "Y", true⟩).2 :=
  ⟨(decline_exact_n ⟨tableC, []⟩ (replyFrom hwAA ip9) "n" true ip5
      (by decide) (by decide) (by decide) (by decide) (Or.inr rfl)).1,
   (decline_exact_n ⟨tableC, []⟩ (replyFrom hwAA ip9) "n" true ip5
      (by decide) (by decide) (by decide) (by decide) (Or.inr rfl)).2.2.2
     "Y" (by simp) (by simp) hwBB (by decide)⟩

/-- C8: when the installer fails on an accepted resolution, the failure
is reported (`installerError` among the emitted events, followed by the
missing-entry note the `find` flag quirk produces), `ip` still enters
the ignore set, and the loop goes on to process the remaining input. -/
theorem installer_failure_recoverable (st : GuardState) (f : ARPFrame) (a : String)
    (reg : Nat) (key : HWAddr)
    (hop : f.opcode = ARPOP_REPLY)
    (hreg : tblLookup st.table f.hw_src = some reg)
    (hconf : reg ≠ f.ip_src)
    (hnew : f.ip_src ∉ st.ignored)
    (hacc : a ≠ "N" ∧ a ≠ "n")
    (hfind : tblFindByIP st.table f.ip_src = some key) :
    (guardStep st ⟨some f, a, false⟩).2
      = [GuardEvent.prompt f.hw_src f.ip_src, GuardEvent.installerCall f.ip_src key,
         GuardEvent.installerError, GuardEvent.missingEntry]
    ∧ f.ip_src ∈ (guardStep st ⟨some f, a, false⟩).1.ignored
    ∧ (∀ rest, guardRun st (⟨some f, a, false⟩ :: rest)
        = ((guardRun (guardStep st ⟨some f, a, false⟩).1 rest).1,
           (guardStep st ⟨some f, a, false⟩).2 ++
             (guardRun (guardStep st ⟨some f, a, false⟩).1 rest).2)) := by
  have hshape := guardStep_conflict st f a false reg hop hreg hconf hnew
  refine ⟨?_, ?_, fun rest => rfl⟩
  · rw [hshape]; simp [hacc, hfind]
  · rw [hshape]; simp

/-- Witness for `installer_failure_recoverable`: scenario C's conflict,
accepted, installer failing; a second fresh conflict in the remaining
input is still processed. -/
theorem installer_failure_recoverable_witness :
    (guardStep ⟨tableC, []⟩ ⟨some (replyFrom hwAA ip9), "Y", false⟩).2
      = [GuardEvent.prompt hwAA ip9, GuardEvent.installerCall ip9 hwBB,
         GuardEvent.installerError, GuardEvent.missingEntry]
    ∧ ip9 ∈ (guardStep ⟨tableC, []⟩ ⟨some (replyFrom hwAA ip9), "Y", false⟩).1.ignored
    ∧ guardRun ⟨tableC, []⟩ [⟨some (replyFrom hwAA ip9), "Y", false⟩]
        = ((guardRun (guardStep ⟨tableC, []⟩ ⟨some (replyFrom hwAA ip9), "Y", false⟩).1 []).1,
           (guardStep ⟨tableC, []⟩ ⟨some (replyFrom hwAA ip9), "Y", false⟩).2 ++
             (guardRun (guardStep ⟨tableC, []⟩ ⟨some (replyFrom hwAA ip9), "Y", false⟩).1 []).2) :=
  ⟨(installer_failure_recoverable ⟨tableC, []⟩ (replyFrom hwAA ip9) "Y" ip5 hwBB
      (by decide) (by decide) (by decide) (by decide) (by simp) (by decide)).1,
   (installer_failure_recoverable ⟨tableC, []⟩ (replyFrom hwAA ip9) "Y" ip5 hwBB
      (by decide) (by decide) (by decide) (by decide) (by simp) (by decide)).2.1,
   (installer_failure_recoverable ⟨tableC, []⟩ (replyFrom hwAA ip9) "Y" ip5 hwBB
      (by decide) (by decide) (by decide) (by decide) (by simp) (by decide)).2.2 []⟩

/-- Any single `guard` iteration leaves the trust table untouched and
only ever extends the ignore set. -/
theorem guardStep_invariant (st : GuardState) (inp : GuardInput) :
    (guardStep st inp).1.table = st.table
    ∧ ∀ x, x ∈ st.ignored → x ∈ (guardStep st inp).1.ignored := by
  rcases inp with ⟨fr, a, ok⟩
  rcases fr with _ | reply
  · exact ⟨rfl, fun _ hx => hx⟩
  · unfold guardStep
    simp only
    repeat' split
    all_goals
      first
      | exact ⟨rfl, fun _ hx => hx⟩
      | exact ⟨rfl, fun _ hx => List.mem_cons_of_mem _ hx⟩

/-- C9: over any monitored input schedule, the trust table after the
run equals the trust table before it (the monitor never mutates it) and
the ignore set only grows (no step removes an element). -/
theorem monitor_invariants (st : GuardState) (inputs : List GuardInput) :
    (guardRun st inputs).1.table = st.table
    ∧ ∀ x, x ∈ st.ignored → x ∈ (guardRun st inputs).1.ignored := by
  induction inputs generalizing st with
  | nil => exact ⟨rfl, fun _ hx => hx⟩
  | cons i rest ih =>
    simp only [guardRun]
    obtain ⟨h1, h2⟩ := guardStep_invariant st i
    obtain ⟨h3, h4⟩ := ih (guardStep st i).1
    exact ⟨h3.trans h1, fun x hx => h4 x (h2 x hx)⟩

/-- Witness for `monitor_invariants`: one conflicting frame processed
from a state already ignoring `10.0.0.5`. -/
theorem monitor_invariants_witness :
    (guardRun ⟨tableC, [ip5]⟩ [⟨some (replyFrom hwAA ip9), "Y", true⟩]).1.table = tableC
    ∧ ip5 ∈ (guardRun ⟨tableC, [ip5]⟩ [⟨some (replyFrom hwAA ip9), "Y", true⟩]).1.ignored :=
  ⟨(monitor_invariants ⟨tableC, [ip5]⟩ [⟨some (replyFrom hwAA ip9), "Y", true⟩]).1,
   (monitor_invariants ⟨tableC, [ip5]⟩ [⟨some (replyFrom hwAA ip9), "Y", true⟩]).2
     ip5 (by decide)⟩

/-- C10: the ignore set is keyed by the IPv4 address alone
(`set<uint32_t>`, `ignored.find(ip.s_addr)`): after a conflict about
`ip` is resolved once, a conflicting reply claiming the same `ip` from a
different trusted hardware address is also suppressed — no resolver
prompt, no installer call, no report, no state change. -/
theorem ignore_keyed_by_ip_only (st : GuardState) (f g : ARPFrame) (a a2 : String)
    (ok ok2 : Bool) (reg reg2 : Nat)
    (hop : f.opcode = ARPOP_REPLY)
    (hreg : tblLookup st.table f.hw_src = some reg)
    (hconf : reg ≠ f.ip_src)
    (hnew : f.ip_src ∉ st.ignored)
    (hop2 : g.opcode = ARPOP_REPLY)
    (hip2 : g.ip_src = f.ip_src)
    (hdiff : g.hw_src ≠ f.hw_src)
    (hreg2 : tblLookup st.table g.hw_src = some reg2)
    (hconf2 : reg2 ≠ g.ip_src) :
    guardStep (guardStep st ⟨some f, a, ok⟩).1 ⟨some g, a2, ok2⟩
      = ((guardStep st ⟨some f, a, ok⟩).1, []) := by
  rw [guardStep_conflict st f a ok reg hop hreg hconf hnew]
  exact guardStep_suppressed _ g a2 ok2 reg2 hop2 hreg2 hconf2
    (by rw [hip2]; exact List.mem_cons_self _ _)

/-- Witness for `ignore_keyed_by_ip_only`: on the three-entry table, the
conflict `(AA, 10.0.0.9)` is resolved once; the later conflicting reply
`(CC, 10.0.0.9)` from a different trusted hardware address is dropped. -/
theorem ignore_keyed_by_ip_only_witness :
    guardStep (guardStep ⟨tableD, []⟩ ⟨some (replyFrom hwAA ip9), "Y", true⟩).1
        ⟨some (replyFrom hwCC ip9), "Y", true⟩
      = ((guardStep ⟨tableD, []⟩ ⟨some (replyFrom hwAA ip9), "Y", true⟩).1, []) :=
  ignore_keyed_by_ip_only ⟨tableD, []⟩ (replyFrom hwAA ip9) (replyFrom hwCC ip9)
    "Y" "Y" true true ip5 ip7 (by decide) (by decide) (by decide) (by decide)
    (by decide) (by decide) (by decide) (by decide) (by decide)
